import Mathlib

set_option maxHeartbeats 1000000
set_option synthInstance.maxHeartbeats 400000

/-!
Formal model of the 3d-viewer repository (source: src/src/app/mesh-viewer.tsx).

The numeric idealization follows the specification's "within floating tolerance"
stance: JavaScript doubles are modelled as exact rationals (ℚ) where the code is
pure arithmetic, and as real numbers (ℝ) where the code uses trigonometry and
square roots (camera math).
-/

namespace MV

/-- Source `interface Vertex` (mesh-viewer.tsx lines 4-8): a point in 3D space. -/
structure Vertex where
  x : ℚ
  y : ℚ
  z : ℚ
  deriving DecidableEq

/-- Source `interface Normal` (mesh-viewer.tsx lines 10-14). -/
structure Normal where
  x : ℚ
  y : ℚ
  z : ℚ
  deriving DecidableEq

/-- Source `interface Face` (mesh-viewer.tsx lines 16-19): an ordered vertex list
plus one flat normal. -/
structure Face where
  vertices : List Vertex
  normal : Normal
  deriving DecidableEq

/-- Source `interface Object3D` (mesh-viewer.tsx lines 21-24). -/
structure Object3D where
  faces : List Face
  name : Option String
  deriving DecidableEq

/-- Source `interface SceneData` (mesh-viewer.tsx lines 26-28). -/
structure SceneData where
  objects : List Object3D
  deriving DecidableEq

/-- The four mutable buffers of `createMeshFromObject` (mesh-viewer.tsx lines
218-222): the `vertices`, `normals`, `indices` arrays and the running `vertexIndex`. -/
structure Buffers where
  vertices : List ℚ
  normals : List ℚ
  indices : List ℕ
  vertexIndex : ℕ
  deriving DecidableEq

/-- One iteration of the `object.faces.forEach` loop in `createMeshFromObject`
(mesh-viewer.tsx lines 224-249): a 4-vertex face pushes its 4 vertices (each with
the face's flat normal) and two index triangles, a 3-vertex face pushes 3 vertices
and one triangle, and any other vertex count leaves the buffers unchanged. -/
def pushFace (b : Buffers) (face : Face) : Buffers :=
  if face.vertices.length = 4 then
    { vertices := b.vertices ++ face.vertices.flatMap fun v => [v.x, v.y, v.z]
      normals := b.normals ++ face.vertices.flatMap fun _ => [face.normal.x, face.normal.y, face.normal.z]
      indices := b.indices ++ [b.vertexIndex, b.vertexIndex + 1, b.vertexIndex + 2,
                               b.vertexIndex, b.vertexIndex + 2, b.vertexIndex + 3]
      vertexIndex := b.vertexIndex + 4 }
  else if face.vertices.length = 3 then
    { vertices := b.vertices ++ face.vertices.flatMap fun v => [v.x, v.y, v.z]
      normals := b.normals ++ face.vertices.flatMap fun _ => [face.normal.x, face.normal.y, face.normal.z]
      indices := b.indices ++ [b.vertexIndex, b.vertexIndex + 1, b.vertexIndex + 2]
      vertexIndex := b.vertexIndex + 3 }
  else b

/-- The buffer-building part of `createMeshFromObject` (mesh-viewer.tsx lines
217-253). The material, color and derived wireframe of the returned group are
built from these buffers and are not needed by any claim. -/
def createMeshFromObject (object : Object3D) : Buffers :=
  object.faces.foldl pushFace { vertices := [], normals := [], indices := [], vertexIndex := 0 }

/-- Total vertex count (the builder's final `vertexIndex`) over all renderable
groups of a scene (`handleJsonSubmit` lines 307-310 builds one group per object). -/
def sceneVertexTotal (sd : SceneData) : ℕ :=
  (sd.objects.map fun o => (createMeshFromObject o).vertexIndex).sum

/-- Total length of the triangle index lists over all renderable groups. -/
def sceneIndexTotal (sd : SceneData) : ℕ :=
  (sd.objects.map fun o => (createMeshFromObject o).indices.length).sum

/-- Total length of the position arrays over all renderable groups. -/
def scenePositionTotal (sd : SceneData) : ℕ :=
  (sd.objects.map fun o => (createMeshFromObject o).vertices.length).sum

/-- Well-formedness of the builder's buffers: positions and normals stay in sync
with the vertex counter, and indices only reference emitted vertices. -/
def buffersWF (b : Buffers) : Prop :=
  b.vertices.length = 3 * b.vertexIndex ∧ b.normals.length = 3 * b.vertexIndex ∧
    ∀ i ∈ b.indices, i < b.vertexIndex

/-- A concrete quad face, used by witnesses. -/
def quadFace : Face := ⟨[⟨0,0,0⟩, ⟨1,0,0⟩, ⟨1,1,0⟩, ⟨0,1,0⟩], ⟨0,0,1⟩⟩

/-- A concrete triangle face, used by witnesses. -/
def triFace : Face := ⟨[⟨0,0,0⟩, ⟨1,0,0⟩, ⟨0,1,0⟩], ⟨0,0,1⟩⟩

/-- A concrete 5-vertex face (must be silently skipped), used by witnesses. -/
def pentFace : Face := ⟨[⟨0,0,0⟩, ⟨1,0,0⟩, ⟨1,1,0⟩, ⟨0,1,0⟩, ⟨2,2,0⟩], ⟨0,0,1⟩⟩

/-- Empty buffers, the state at the start of the face loop. -/
def emptyBuffers : Buffers := ⟨[], [], [], 0⟩

/-- A concrete two-object scene, each object a single quad face, used by witnesses. -/
def sampleScene : SceneData := ⟨[⟨[quadFace], none⟩, ⟨[quadFace], some "a"⟩]⟩

/-- Camera position (a THREE.Vector3), real-valued. The camera's orientation
(`lookAt`) is recomputed from the position and never feeds back into it, so the
camera state relevant to the claims is the position alone. -/
structure Vec3 where
  x : ℝ
  y : ℝ
  z : ℝ

/-- THREE.Vector3.length(): Euclidean norm, the camera's distance from the origin. -/
noncomputable def vecNorm (p : Vec3) : ℝ := Real.sqrt (p.x ^ 2 + p.y ^ 2 + p.z ^ 2)

/-- Model of `handleWheel` (mesh-viewer.tsx lines 157-170): pick the zoom factor
from the wheel direction, clamp `currentDistance * delta` into
[minDistance, maxDistance] = [0.1, 100], then `normalize().multiplyScalar(newDistance)`.
THREE's `normalize` divides by `length() || 1` (1 when the length is 0).
`lookAt(0,0,0)` changes orientation only, not position. -/
noncomputable def handleWheel (deltaY : ℝ) (p : Vec3) : Vec3 :=
  let delta : ℝ := if 0 < deltaY then 1 + 0.1 else 1 / (1 + 0.1)
  let newDistance : ℝ := max 0.1 (min 100 (vecNorm p * delta))
  let len : ℝ := if vecNorm p = 0 then 1 else vecNorm p
  ⟨p.x / len * newDistance, p.y / len * newDistance, p.z / len * newDistance⟩

/-- A sequence of wheel events applied in order. -/
noncomputable def applyWheel (evs : List ℝ) (p : Vec3) : Vec3 :=
  evs.foldl (fun q dy => handleWheel dy q) p

/-- JS Math.atan2(y, x), modelled as the argument of the complex number x + y·i
(both have range (-π, π] and the same quadrant conventions). -/
noncomputable def jsAtan2 (y x : ℝ) : ℝ := Complex.arg ⟨x, y⟩

/-- The horizontal update of `handleMouseMove` (mesh-viewer.tsx lines 131-134).
The source assigns `position.x` first and then READS THE UPDATED `position.x`
when computing `position.z` (there is no temporary); the model reproduces that
sequential assignment faithfully, so the first component reappears inside the
third. `rotationSpeed = 0.01` (line 129). -/
noncomputable def horizStep (deltaX : ℝ) (p : Vec3) : Vec3 :=
  ⟨p.x * Real.cos (deltaX * 0.01) - p.z * Real.sin (deltaX * 0.01),
   p.y,
   (p.x * Real.cos (deltaX * 0.01) - p.z * Real.sin (deltaX * 0.01)) * Real.sin (deltaX * 0.01)
     + p.z * Real.cos (deltaX * 0.01)⟩

/-- The vertical update of `handleMouseMove` (mesh-viewer.tsx lines 136-145):
`currentRadius = sqrt(z² + y²)`, `currentAngle = atan2(y, z)`, then
`y = r·sin(angle + deltaY·0.01)`, `z = r·cos(angle + deltaY·0.01)`. -/
noncomputable def vertStep (deltaY : ℝ) (p : Vec3) : Vec3 :=
  ⟨p.x,
   Real.sqrt (p.z * p.z + p.y * p.y) * Real.sin (jsAtan2 p.y p.z + deltaY * 0.01),
   Real.sqrt (p.z * p.z + p.y * p.y) * Real.cos (jsAtan2 p.y p.z + deltaY * 0.01)⟩

/-- One `mousemove` event while dragging (mesh-viewer.tsx lines 123-151):
horizontal update, then vertical update; `lookAt(0,0,0)` (line 147) changes
orientation only. -/
noncomputable def handleMouseMove (deltaX deltaY : ℝ) (p : Vec3) : Vec3 :=
  vertStep deltaY (horizStep deltaX p)

/-- A full drag gesture: mouse-down at `start` (which sets lastX/lastY, lines
115-121), then mouse-move events at the cursor positions `moves`; each step's
deltas are current-minus-last coordinates and last is then updated (lines
126-127 and 149-150). Returns the final camera position. -/
noncomputable def dragGesture (start : ℝ × ℝ) (moves : List (ℝ × ℝ)) (p : Vec3) : Vec3 :=
  (moves.foldl (fun acc m => (m, handleMouseMove (m.1 - acc.1.1) (m.2 - acc.1.2) acc.2)) (start, p)).2

/-- JS truncation toward zero of a rational number (the rounding used by the JS
`%` operator on numbers). -/
def truncQ (x : ℚ) : ℤ := if x < 0 then -⌊-x⌋ else ⌊x⌋

/-- The JavaScript `%` (remainder) operator on numbers: `a - b * trunc(a / b)`. -/
def jsMod (a b : ℚ) : ℚ := a - b * (truncQ (a / b) : ℚ)

/-- JS `Math.round`: round half toward +∞. -/
def jsRound (x : ℚ) : ℤ := ⌊x + 1 / 2⌋

/-- The two sequential corrections `if (t < 0) t += 1; if (t > 1) t -= 1;` at the
start of `hue2rgb` (mesh-viewer.tsx lines 199-200). Each runs at most once. -/
def hue2rgbShift (t : ℚ) : ℚ :=
  if (if t < 0 then t + 1 else t) > 1 then (if t < 0 then t + 1 else t) - 1
  else (if t < 0 then t + 1 else t)

/-- The `hue2rgb` helper of `generateColor` (mesh-viewer.tsx lines 198-205). -/
def hue2rgb (p q t : ℚ) : ℚ :=
  if hue2rgbShift t < 1 / 6 then p + (q - p) * 6 * hue2rgbShift t
  else if hue2rgbShift t < 1 / 2 then q
  else if hue2rgbShift t < 2 / 3 then p + (q - p) * (2 / 3 - hue2rgbShift t) * 6
  else p

/-- `generateColor` (mesh-viewer.tsx lines 189-215): hue = (index · 137.508) % 360
at saturation 70, lightness 60, converted from HSL via `hue2rgb`, each channel
rounded to 0..255. The source returns `THREE.Color(r/255, g/255, b/255)`, which
is determined by (and determines) this integer triple. -/
def generateColor (index : ℚ) : ℤ × ℤ × ℤ :=
  let hue := jsMod (index * 137.508) 360
  let saturation : ℚ := 70
  let lightness : ℚ := 60
  let h := hue / 360
  let s := saturation / 100
  let l := lightness / 100
  let q := if l < 1 / 2 then l * (1 + s) else l + s - l * s
  let p := 2 * l - q
  (jsRound (hue2rgb p q (h + 1 / 3) * 255),
   jsRound (hue2rgb p q h * 255),
   jsRound (hue2rgb p q (h - 1 / 3) * 255))

/-- The hue ramp of `hue2rgb` at p = 8/25, q = 22/25 (the values for s = 0.7,
l = 0.6) on the fundamental domain [0,1): up-ramp, flat q, down-ramp, flat p.
Analysis helper: `hue2rgb_eq_fpw` proves it agrees with the source function. -/
def fpw (u : ℚ) : ℚ :=
  if u < 1 / 6 then 8 / 25 + (22 / 25 - 8 / 25) * 6 * u
  else if u < 1 / 2 then 22 / 25
  else if u < 2 / 3 then 8 / 25 + (22 / 25 - 8 / 25) * (2 / 3 - u) * 6
  else 8 / 25

/-- A parsed JSON value: the possible results of the `JSON.parse` builtin. -/
inductive Json where
  | null : Json
  | jbool : Bool → Json
  | jnum : ℚ → Json
  | jstr : String → Json
  | jarr : List Json → Json
  | jobj : List (String × Json) → Json

/-- JS object member access on parsed JSON fields; for duplicate keys,
`JSON.parse` keeps the last occurrence. -/
def lookupField (fields : List (String × Json)) (key : String) : Option Json :=
  fields.foldl (fun acc kv => if kv.1 = key then some kv.2 else acc) none

/-- JSON whitespace: space, newline, carriage return, horizontal tab. -/
def isJsonWs (c : Char) : Bool := c == '\x20' || c == '\n' || c == '\t' || c == '\r'

/-- Drop leading JSON whitespace. -/
def skipWs : List Char → List Char
  | [] => []
  | c :: cs => if isJsonWs c then skipWs cs else c :: cs

/-- JSON string escape characters after a backslash. The model does not support
\uXXXX escapes (it rejects them); no claim exercises them. -/
def escChar : Char → Option Char
  | '"' => some '"'
  | '\\' => some '\\'
  | '/' => some '/'
  | 'b' => some (Char.ofNat 8)
  | 'f' => some (Char.ofNat 12)
  | 'n' => some '\n'
  | 'r' => some '\r'
  | 't' => some '\t'
  | _ => none

/-- Parse the body of a JSON string after the opening quote, returning the
characters and the rest of the input. -/
def parseStringBody : List Char → Option (List Char × List Char)
  | [] => none
  | c :: cs =>
    if c = '"' then some ([], cs)
    else if c = '\\' then
      match cs with
      | [] => none
      | d :: ds =>
        match escChar d with
        | none => none
        | some e =>
          match parseStringBody ds with
          | none => none
          | some (s, r) => some (e :: s, r)
    else
      match parseStringBody cs with
      | none => none
      | some (s, r) => some (c :: s, r)

/-- Decimal digit value of a character, if any. -/
def digitVal (c : Char) : Option ℕ :=
  if '0' ≤ c ∧ c ≤ '9' then some (c.toNat - '0'.toNat) else none

/-- Take a maximal run of decimal digits. -/
def takeDigits : List Char → List ℕ × List Char
  | [] => ([], [])
  | c :: cs =>
    match digitVal c with
    | some d =>
      let p := takeDigits cs
      (d :: p.1, p.2)
    | none => ([], c :: cs)

/-- Value of a digit run. -/
def digitsToNat (ds : List ℕ) : ℕ := ds.foldl (fun a d => a * 10 + d) 0

/-- Parse a JSON number (sign, integer part, optional fraction, optional
exponent) as an exact rational. -/
def parseNumber (l : List Char) : Option (ℚ × List Char) :=
  let sdata : Bool × List Char :=
    match l with
    | '-' :: r => (true, r)
    | _ => (false, l)
  match takeDigits sdata.2 with
  | ([], _) => none
  | (ids, l2) =>
    let ip : ℚ := (digitsToNat ids : ℕ)
    let step2 : Option (ℚ × List Char) :=
      match l2 with
      | '.' :: r =>
        match takeDigits r with
        | ([], _) => none
        | (fds, r2) => some (ip + (digitsToNat fds : ℚ) / (10 : ℚ) ^ fds.length, r2)
      | _ => some (ip, l2)
    match step2 with
    | none => none
    | some (m, l3) =>
      let step3 : Option (ℚ × List Char) :=
        match l3 with
        | 'e' :: r =>
          let es : ℤ × List Char :=
            match r with
            | '+' :: rr => (1, rr)
            | '-' :: rr => (-1, rr)
            | _ => (1, r)
          match takeDigits es.2 with
          | ([], _) => none
          | (eds, r2) => some (m * (10 : ℚ) ^ (es.1 * (digitsToNat eds : ℤ)), r2)
        | 'E' :: r =>
          let es : ℤ × List Char :=
            match r with
            | '+' :: rr => (1, rr)
            | '-' :: rr => (-1, rr)
            | _ => (1, r)
          match takeDigits es.2 with
          | ([], _) => none
          | (eds, r2) => some (m * (10 : ℚ) ^ (es.1 * (digitsToNat eds : ℤ)), r2)
        | _ => some (m, l3)
      match step3 with
      | none => none
      | some (v, r) => some (if sdata.1 then -v else v, r)

mutual

/-- Parse one JSON value. The fuel argument bounds recursion depth; callers pass
one more than the input length, which every accepting run stays within since each
recursive call follows the consumption of at least one input character. -/
def parseValue : ℕ → List Char → Option (Json × List Char)
  | 0, _ => none
  | fuel + 1, l =>
    match skipWs l with
    | [] => none
    | '\x7b' :: cs =>
      match skipWs cs with
      | '\x7d' :: r => some (.jobj [], r)
      | cs2 =>
        match parseMembers fuel cs2 with
        | none => none
        | some (fs, r) => some (.jobj fs, r)
    | '[' :: cs =>
      match skipWs cs with
      | ']' :: r => some (.jarr [], r)
      | cs2 =>
        match parseElems fuel cs2 with
        | none => none
        | some (es, r) => some (.jarr es, r)
    | '"' :: cs =>
      match parseStringBody cs with
      | none => none
      | some (s, r) => some (.jstr (String.mk s), r)
    | 'n' :: 'u' :: 'l' :: 'l' :: r => some (.null, r)
    | 't' :: 'r' :: 'u' :: 'e' :: r => some (.jbool true, r)
    | 'f' :: 'a' :: 'l' :: 's' :: 'e' :: r => some (.jbool false, r)
    | l2 =>
      match parseNumber l2 with
      | none => none
      | some (q, r) => some (.jnum q, r)

/-- Parse the elements of a nonempty JSON array up to the closing bracket. -/
def parseElems : ℕ → List Char → Option (List Json × List Char)
  | 0, _ => none
  | fuel + 1, l =>
    match parseValue fuel l with
    | none => none
    | some (v, r) =>
      match skipWs r with
      | ',' :: r2 =>
        match parseElems fuel r2 with
        | none => none
        | some (es, r3) => some (v :: es, r3)
      | ']' :: r2 => some ([v], r2)
      | _ => none

/-- Parse the members of a nonempty JSON object up to the closing brace. -/
def parseMembers : ℕ → List Char → Option (List (String × Json) × List Char)
  | 0, _ => none
  | fuel + 1, l =>
    match skipWs l with
    | '"' :: cs =>
      match parseStringBody cs with
      | none => none
      | some (k, r) =>
        match skipWs r with
        | ':' :: r2 =>
          match parseValue fuel r2 with
          | none => none
          | some (v, r3) =>
            match skipWs r3 with
            | ',' :: r4 =>
              match parseMembers fuel r4 with
              | none => none
              | some (fs, r5) => some ((String.mk k, v) :: fs, r5)
            | '\x7d' :: r4 => some ([(String.mk k, v)], r4)
            | _ => none
        | _ => none
    | _ => none

end

/-- Model of the `JSON.parse` builtin used on line 289: parse one value and
require only trailing whitespace after it; `none` models the thrown SyntaxError.
Documented simplifications (none exercised by a claim): \uXXXX escapes are
rejected; leading zeros and raw control characters inside strings are accepted. -/
def jsonParse (s : String) : Option Json :=
  match parseValue (s.length + 1) s.data with
  | none => none
  | some (v, r) => if skipWs r = [] then some v else none

/-- A scene-graph child: the lights and grid re-added on load, or a renderable
group built from one input object (its parsed JSON is kept as the payload). -/
inductive SceneNode where
  | ambient : SceneNode
  | directional : SceneNode
  | grid : SceneNode
  | group : Json → SceneNode

/-- The static error message set by the catch handler (mesh-viewer.tsx line 314). -/
def errMsg : String := "Invalid JSON format. Please check your input."

/-- The ambient light, directional light and grid re-added by `handleJsonSubmit`
after clearing (mesh-viewer.tsx lines 296-304). -/
def baseScene : List SceneNode := [SceneNode.ambient, SceneNode.directional, SceneNode.grid]

/-- `data.objects.forEach(...)` (line 307): yields the element list when `data`
is an object whose `objects` member is an array; `none` models the TypeError
thrown otherwise (member access on null, or `.forEach` of a non-array), which the
surrounding try/catch converts into the error message. -/
def getObjectsArr : Json → Option (List Json)
  | .jobj fields =>
    match lookupField fields "objects" with
    | some (.jarr l) => some l
    | _ => none
  | _ => none

/-- `vertex.x` / `vertex.y` / `vertex.z` (lines 227-229) throw only when the
element is null; any other value yields a (possibly undefined) pushed value. -/
def vertexAccessOk : Json → Bool
  | .null => false
  | _ => true

/-- `face.normal.x` (line 229) throws when `normal` is absent or null; primitive
normals yield undefined components, pushed without throwing. -/
def normalAccessOk (face : List (String × Json)) : Bool :=
  match lookupField face "normal" with
  | none => false
  | some .null => false
  | some _ => true

/-- One face of the Json-level `object.faces.forEach` loop (lines 224-249) run on
raw parsed data: `some true` = contributes geometry, `some false` = silently
skipped (`vertices.length` is neither 3 nor 4), `none` = a TypeError is thrown.
A `vertices` that is a string of length 3 or 4 passes the length test but has no
`forEach`, hence throws; an object `vertices` has undefined `.length` and is
skipped (an object carrying a numeric `length` member is approximated as skipped). -/
def faceStep : Json → Option Bool
  | .jobj fields =>
    match lookupField fields "vertices" with
    | none => none
    | some v =>
      match v with
      | .null => none
      | .jarr elems =>
        if elems.length = 4 ∨ elems.length = 3 then
          if elems.all vertexAccessOk && normalAccessOk fields then some true else none
        else some false
      | .jstr s =>
        if s.length = 4 ∨ s.length = 3 then none
        else some false
      | _ => some false
  | _ => none

/-- The Json-level `createMeshFromObject` call site (line 308): the spread
`{...obj, name: obj.name || ...}` preserves `faces` for object inputs and yields
an object without `faces` otherwise; `faces.forEach` then requires an array.
`none` models a thrown TypeError; on success the group keeps the object as payload. -/
def buildGroupFromJson (obj : Json) : Option SceneNode :=
  match obj with
  | .jobj fields =>
    match lookupField fields "faces" with
    | some (.jarr faces) =>
      if faces.all fun f => (faceStep f).isSome then some (.group obj) else none
    | _ => none
  | _ => none

/-- The `data.objects.forEach` loop body (lines 307-310): build and add one group
per object until a throw; returns the scene children reached and whether a throw
occurred. -/
def processObjects : List Json → List SceneNode → List SceneNode × Bool
  | [], acc => (acc, false)
  | o :: rest, acc =>
    match buildGroupFromJson o with
    | none => (acc, true)
    | some g => processObjects rest (acc ++ [g])

/-- `handleJsonSubmit` (mesh-viewer.tsx lines 285-316): parse; on parse error the
catch fires with the scene untouched. On parse success the scene is cleared
(lines 292-294) and lights/grid re-added (lines 296-304) BEFORE
`data.objects.forEach` runs, so a TypeError thrown there (shape mismatch) is
caught only after the scene was already mutated. Returns the resulting scene
children and error-slot string. -/
def handleJsonSubmit (input : String) (scene : List SceneNode) : List SceneNode × String :=
  match jsonParse input with
  | none => (scene, errMsg)
  | some data =>
    match getObjectsArr data with
    | none => (baseScene, errMsg)
    | some objs =>
      let res := processObjects objs baseScene
      (res.1, if res.2 then errMsg else "")

/-- A submission fails iff the try block throws: parse error, missing or
non-array `objects`, or an object whose group construction throws. -/
def submitFails (input : String) : Bool :=
  match jsonParse input with
  | none => true
  | some data =>
    match getObjectsArr data with
    | none => true
    | some objs => (processObjects objs baseScene).2

/-- A prior scene holding the grid plus one renderable group, used by C1. -/
def priorScene : List SceneNode :=
  [SceneNode.grid, SceneNode.group (Json.jobj [("faces", Json.jarr [])])]

/-- The text submitted in C7. -/
def emptyObjectsInput : String := "\x7b\"objects\": []\x7d"

lemma flatMap_xyz_length (l : List Vertex) :
    (l.flatMap fun v => [v.x, v.y, v.z]).length = 3 * l.length := by
  induction l with
  | nil => simp
  | cons v t ih => simp [ih]; ring

lemma flatMap_nrm_length (l : List Vertex) (a b c : ℚ) :
    (l.flatMap fun _ => [a, b, c]).length = 3 * l.length := by
  induction l with
  | nil => simp
  | cons v t ih => simp [ih]; ring

lemma flatMap_const_eq_replicate (l : List Vertex) (c : List ℚ) :
    (l.flatMap fun _ => c) = (List.replicate l.length c).flatten := by
  induction l with
  | nil => simp
  | cons v t ih => simp [List.replicate_succ, ih]

lemma pushFace_wf (b : Buffers) (f : Face) (hb : buffersWF b) : buffersWF (pushFace b f) := by
  obtain ⟨hv, hn, hi⟩ := hb
  unfold pushFace
  split_ifs with h4 h3
  · refine ⟨?_, ?_, ?_⟩
    · simp only [List.length_append, flatMap_xyz_length, hv, h4]; omega
    · simp only [List.length_append, flatMap_nrm_length, hn, h4]; omega
    · intro i hmem
      rw [List.mem_append] at hmem
      rcases hmem with h | h
      · have := hi i h; simp; omega
      · simp at h ⊢; omega
  · refine ⟨?_, ?_, ?_⟩
    · simp only [List.length_append, flatMap_xyz_length, hv, h3]; omega
    · simp only [List.length_append, flatMap_nrm_length, hn, h3]; omega
    · intro i hmem
      rw [List.mem_append] at hmem
      rcases hmem with h | h
      · have := hi i h; simp; omega
      · simp at h ⊢; omega
  · exact ⟨hv, hn, hi⟩

lemma foldl_wf (fs : List Face) : ∀ b : Buffers, buffersWF b → buffersWF (fs.foldl pushFace b) := by
  induction fs with
  | nil => intro b hb; simpa using hb
  | cons f t ih => intro b hb; exact ih _ (pushFace_wf b f hb)

lemma foldl_quads (fs : List Face) (hq : ∀ f ∈ fs, f.vertices.length = 4) :
    ∀ b : Buffers,
      (fs.foldl pushFace b).vertexIndex = b.vertexIndex + 4 * fs.length ∧
      (fs.foldl pushFace b).indices.length = b.indices.length + 6 * fs.length ∧
      (fs.foldl pushFace b).vertices.length = b.vertices.length + 12 * fs.length := by
  induction fs with
  | nil => intro b; simp
  | cons f t ih =>
    intro b
    have hf : f.vertices.length = 4 := hq f (by simp)
    have ht : ∀ g ∈ t, g.vertices.length = 4 := fun g hg => hq g (by simp [hg])
    have s1 : (pushFace b f).vertexIndex = b.vertexIndex + 4 := by
      unfold pushFace; rw [if_pos hf]
    have s2 : (pushFace b f).indices.length = b.indices.length + 6 := by
      unfold pushFace; rw [if_pos hf]; simp
    have s3 : (pushFace b f).vertices.length = b.vertices.length + 12 := by
      unfold pushFace; rw [if_pos hf]
      simp only [List.length_append, flatMap_xyz_length, hf]
    obtain ⟨i1, i2, i3⟩ := (ih ht) (pushFace b f)
    rw [List.foldl_cons]
    refine ⟨?_, ?_, ?_⟩ <;> simp only [i1, i2, i3, s1, s2, s3, List.length_cons] <;> omega

lemma quad_object_counts (o : Object3D) (M : ℕ) (hM : o.faces.length = M)
    (hq : ∀ f ∈ o.faces, f.vertices.length = 4) :
    (createMeshFromObject o).vertexIndex = 4 * M ∧
    (createMeshFromObject o).indices.length = 6 * M ∧
    (createMeshFromObject o).vertices.length = 12 * M := by
  obtain ⟨a1, a2, a3⟩ :=
    foldl_quads o.faces hq { vertices := [], normals := [], indices := [], vertexIndex := 0 }
  unfold createMeshFromObject
  rw [a1, a2, a3, hM]
  simp

lemma totals_list (objs : List Object3D) (M : ℕ)
    (hM : ∀ o ∈ objs, o.faces.length = M)
    (hq : ∀ o ∈ objs, ∀ f ∈ o.faces, f.vertices.length = 4) :
    ((objs.map fun o => (createMeshFromObject o).vertexIndex).sum = objs.length * M * 4) ∧
    ((objs.map fun o => (createMeshFromObject o).indices.length).sum = objs.length * M * 2 * 3) ∧
    ((objs.map fun o => (createMeshFromObject o).vertices.length).sum = objs.length * M * 4 * 3) := by
  induction objs with
  | nil => simp
  | cons o t ih =>
    obtain ⟨o1, o2, o3⟩ := quad_object_counts o M (hM o (by simp)) (hq o (by simp))
    obtain ⟨h1, h2, h3⟩ := ih (fun o' ho' => hM o' (by simp [ho'])) (fun o' ho' => hq o' (by simp [ho']))
    refine ⟨?_, ?_, ?_⟩ <;> simp only [List.map_cons, List.sum_cons, List.length_cons,
      o1, o2, o3, h1, h2, h3] <;> ring

/-- C2: for every face handed to the geometry builder, a 4-vertex face contributes
exactly 4 vertices (each carrying the face's flat normal unchanged) and the two
triangles (base, base+1, base+2) and (base, base+2, base+3); a 3-vertex face
contributes 3 vertices and the triangle (base, base+1, base+2); any other vertex
count contributes nothing and raises no error (the buffers are returned unchanged). -/
theorem C2_face_contribution (b : Buffers) (f : Face) :
    (f.vertices.length = 4 →
      pushFace b f =
        { vertices := b.vertices ++ f.vertices.flatMap fun v => [v.x, v.y, v.z]
          normals := b.normals ++ (List.replicate 4 [f.normal.x, f.normal.y, f.normal.z]).flatten
          indices := b.indices ++ [b.vertexIndex, b.vertexIndex + 1, b.vertexIndex + 2,
                                   b.vertexIndex, b.vertexIndex + 2, b.vertexIndex + 3]
          vertexIndex := b.vertexIndex + 4 }) ∧
    (f.vertices.length = 3 →
      pushFace b f =
        { vertices := b.vertices ++ f.vertices.flatMap fun v => [v.x, v.y, v.z]
          normals := b.normals ++ (List.replicate 3 [f.normal.x, f.normal.y, f.normal.z]).flatten
          indices := b.indices ++ [b.vertexIndex, b.vertexIndex + 1, b.vertexIndex + 2]
          vertexIndex := b.vertexIndex + 3 }) ∧
    (f.vertices.length ≠ 4 → f.vertices.length ≠ 3 → pushFace b f = b) := by
  refine ⟨?_, ?_, ?_⟩
  · intro h4
    unfold pushFace
    rw [if_pos h4, flatMap_const_eq_replicate, h4]
  · intro h3
    unfold pushFace
    rw [if_neg (by omega), if_pos h3, flatMap_const_eq_replicate, h3]
  · intro h4 h3
    unfold pushFace
    rw [if_neg h4, if_neg h3]

/-- Witness for C2 at concrete faces: a quad, a triangle, and a pentagon. -/
theorem C2_face_contribution_witness :
    pushFace emptyBuffers quadFace =
      { vertices := [0,0,0, 1,0,0, 1,1,0, 0,1,0]
        normals := [0,0,1, 0,0,1, 0,0,1, 0,0,1]
        indices := [0,1,2, 0,2,3]
        vertexIndex := 4 } ∧
    pushFace emptyBuffers triFace =
      { vertices := [0,0,0, 1,0,0, 0,1,0]
        normals := [0,0,1, 0,0,1, 0,0,1]
        indices := [0,1,2]
        vertexIndex := 3 } ∧
    pushFace emptyBuffers pentFace = emptyBuffers := by
  refine ⟨?_, ?_, ?_⟩
  · rw [(C2_face_contribution emptyBuffers quadFace).1 (by decide)]; decide
  · rw [(C2_face_contribution emptyBuffers triFace).2.1 (by decide)]; decide
  · exact (C2_face_contribution emptyBuffers pentFace).2.2 (by decide) (by decide)

/-- C6: for all N and M, an input of N objects, each made of M quad faces, yields
a total vertex count of N·M·4 and a total triangle count of N·M·2 (hence N·M·2·3
index entries and N·M·4·3 position entries) across the renderable groups. -/
theorem C6_quad_scene_totals (N M : ℕ) (sd : SceneData)
    (hN : sd.objects.length = N)
    (hM : ∀ o ∈ sd.objects, o.faces.length = M)
    (hq : ∀ o ∈ sd.objects, ∀ f ∈ o.faces, f.vertices.length = 4) :
    sceneVertexTotal sd = N * M * 4 ∧ sceneIndexTotal sd = N * M * 2 * 3 ∧
    scenePositionTotal sd = N * M * 4 * 3 := by
  have h := totals_list sd.objects M hM hq
  rw [hN] at h
  exact h

/-- Witness for C6 at a concrete two-object scene of one quad face each. -/
theorem C6_quad_scene_totals_witness :
    sampleScene.objects.length = 2 ∧
    (∀ o ∈ sampleScene.objects, o.faces.length = 1) ∧
    (∀ o ∈ sampleScene.objects, ∀ f ∈ o.faces, f.vertices.length = 4) ∧
    (sceneVertexTotal sampleScene = 2 * 1 * 4 ∧ sceneIndexTotal sampleScene = 2 * 1 * 2 * 3 ∧
      scenePositionTotal sampleScene = 2 * 1 * 4 * 3) :=
  ⟨by decide, by decide, by decide,
    C6_quad_scene_totals 2 1 sampleScene (by decide) (by decide) (by decide)⟩

/-- C10: the buffers produced by the geometry builder are mutually consistent:
positions and normals have equal length, both 3 times the final vertex counter,
and every triangle index is strictly below the vertex count. -/
theorem C10_buffer_consistency (o : Object3D) :
    (createMeshFromObject o).vertices.length = (createMeshFromObject o).normals.length ∧
    (createMeshFromObject o).vertices.length = 3 * (createMeshFromObject o).vertexIndex ∧
    ∀ i ∈ (createMeshFromObject o).indices, i < (createMeshFromObject o).vertexIndex := by
  obtain ⟨h1, h2, h3⟩ :=
    foldl_wf o.faces { vertices := [], normals := [], indices := [], vertexIndex := 0 }
      ⟨by simp, by simp, by simp⟩
  exact ⟨h1.trans h2.symm, h1, h3⟩

lemma hundredth : (0.01 : ℝ) = 1 / 100 := by norm_num

/-- Over exact reals, the source's `r·sin(atan2(y,z) + Δ)` / `r·cos(atan2(y,z) + Δ)`
formulation of the vertical update is the plane rotation by Δ in the (y,z)-plane. -/
lemma vertStep_eq (dy : ℝ) (p : Vec3) :
    vertStep dy p = ⟨p.x, p.y * Real.cos (dy * 0.01) + p.z * Real.sin (dy * 0.01),
                          p.z * Real.cos (dy * 0.01) - p.y * Real.sin (dy * 0.01)⟩ := by
  unfold vertStep jsAtan2
  by_cases hz : (⟨p.z, p.y⟩ : ℂ) = 0
  · have h1 : p.z = 0 := congrArg Complex.re hz
    have h2 : p.y = 0 := congrArg Complex.im hz
    simp [h1, h2]
  · have habs : Real.sqrt (p.z * p.z + p.y * p.y) = Complex.abs ⟨p.z, p.y⟩ := by
      rw [Complex.abs_apply, Complex.normSq_mk]
    have hcos := Complex.cos_arg hz
    have hsin := Complex.sin_arg (⟨p.z, p.y⟩ : ℂ)
    have habs0 : Complex.abs ⟨p.z, p.y⟩ ≠ 0 := by
      simpa using hz
    simp only [Vec3.mk.injEq, true_and]
    constructor
    · rw [habs, Real.sin_add, hsin, hcos]
      show Complex.abs ⟨p.z, p.y⟩ *
        ((⟨p.z, p.y⟩ : ℂ).im / Complex.abs ⟨p.z, p.y⟩ * Real.cos (dy * 0.01) +
         (⟨p.z, p.y⟩ : ℂ).re / Complex.abs ⟨p.z, p.y⟩ * Real.sin (dy * 0.01)) = _
      field_simp
    · rw [habs, Real.cos_add, hsin, hcos]
      show Complex.abs ⟨p.z, p.y⟩ *
        ((⟨p.z, p.y⟩ : ℂ).re / Complex.abs ⟨p.z, p.y⟩ * Real.cos (dy * 0.01) -
         (⟨p.z, p.y⟩ : ℂ).im / Complex.abs ⟨p.z, p.y⟩ * Real.sin (dy * 0.01)) = _
      field_simp

lemma handleMouseMove_zero (p : Vec3) : handleMouseMove 0 0 p = p := by
  unfold handleMouseMove
  rw [vertStep_eq]
  unfold horizStep
  simp

/-- Evaluation of one drag step of horizontal delta 100π/3 px (rotation angle π/3)
from the initial camera position (0,0,5). -/
lemma step1_eval : handleMouseMove (100 * Real.pi / 3) 0 ⟨0, 0, 5⟩ =
    ⟨-(5 / 2 * Real.sqrt 3), 0, -(5 / 4)⟩ := by
  have ha : (100 * Real.pi / 3) * 0.01 = Real.pi / 3 := by rw [hundredth]; ring
  have hs : Real.sqrt 3 * Real.sqrt 3 = 3 := Real.mul_self_sqrt (by norm_num)
  unfold handleMouseMove
  rw [vertStep_eq]
  unfold horizStep
  simp only [ha, zero_mul, Real.cos_pi_div_three, Real.sin_pi_div_three, Real.cos_zero,
    Real.sin_zero, Vec3.mk.injEq]
  refine ⟨by ring, by ring, ?_⟩
  linear_combination (-(5 : ℝ) / 4) * hs

/-- Evaluation of the return drag step of horizontal delta −100π/3 px from the
position reached by `step1_eval`. -/
lemma step2_eval : handleMouseMove (-(100 * Real.pi / 3)) 0 ⟨-(5 / 2 * Real.sqrt 3), 0, -(5 / 4)⟩ =
    ⟨-(15 / 8 * Real.sqrt 3), 0, 35 / 16⟩ := by
  have ha : (-(100 * Real.pi / 3)) * 0.01 = -(Real.pi / 3) := by rw [hundredth]; ring
  have hs : Real.sqrt 3 * Real.sqrt 3 = 3 := Real.mul_self_sqrt (by norm_num)
  unfold handleMouseMove
  rw [vertStep_eq]
  unfold horizStep
  simp only [ha, zero_mul, Real.cos_neg, Real.sin_neg, Real.cos_pi_div_three,
    Real.sin_pi_div_three, Real.cos_zero, Real.sin_zero, Vec3.mk.injEq]
  refine ⟨by ring, by ring, ?_⟩
  linear_combination ((15 : ℝ) / 16) * hs

lemma vecNorm_divmul (L n : ℝ) (p : Vec3) :
    vecNorm ⟨p.x / L * n, p.y / L * n, p.z / L * n⟩ = |n / L| * vecNorm p := by
  unfold vecNorm
  rw [show (p.x / L * n) ^ 2 + (p.y / L * n) ^ 2 + (p.z / L * n) ^ 2
        = (n / L) ^ 2 * (p.x ^ 2 + p.y ^ 2 + p.z ^ 2) by ring,
      Real.sqrt_mul (sq_nonneg _), Real.sqrt_sq_eq_abs]

lemma norm_handleWheel (dy : ℝ) (p : Vec3) (hp : vecNorm p ≠ 0) :
    vecNorm (handleWheel dy p) =
      max 0.1 (min 100 (vecNorm p * (if 0 < dy then 1 + 0.1 else 1 / (1 + 0.1)))) := by
  have hpos : 0 < vecNorm p := lt_of_le_of_ne (Real.sqrt_nonneg _) (Ne.symm hp)
  have hnpos : (0:ℝ) < max 0.1 (min 100 (vecNorm p * (if 0 < dy then 1 + 0.1 else 1 / (1 + 0.1)))) :=
    lt_of_lt_of_le (by norm_num) (le_max_left _ _)
  unfold handleWheel
  simp only [if_neg hp]
  rw [vecNorm_divmul, abs_of_pos (div_pos hnpos hpos)]
  exact div_mul_cancel₀ _ hp

lemma handleWheel_bounds (dy : ℝ) (p : Vec3) (hp : vecNorm p ≠ 0) :
    0.1 ≤ vecNorm (handleWheel dy p) ∧ vecNorm (handleWheel dy p) ≤ 100 ∧
      vecNorm (handleWheel dy p) ≠ 0 := by
  rw [norm_handleWheel dy p hp]
  refine ⟨le_max_left _ _, max_le (by norm_num) (min_le_left _ _), ?_⟩
  have h1 : (0.1:ℝ) ≤ max 0.1 (min 100 (vecNorm p * (if 0 < dy then 1 + 0.1 else 1 / (1 + 0.1)))) :=
    le_max_left _ _
  intro h0
  rw [h0] at h1
  norm_num at h1

lemma applyWheel_bounds (evs : List ℝ) :
    ∀ p : Vec3, vecNorm p ≠ 0 → 0.1 ≤ vecNorm p → vecNorm p ≤ 100 →
      0.1 ≤ vecNorm (applyWheel evs p) ∧ vecNorm (applyWheel evs p) ≤ 100 := by
  induction evs with
  | nil => intro p _ h1 h2; exact ⟨by simpa [applyWheel] using h1, by simpa [applyWheel] using h2⟩
  | cons e t ih =>
    intro p hp h1 h2
    have hb := handleWheel_bounds e p hp
    have hstep : applyWheel (e :: t) p = applyWheel t (handleWheel e p) := rfl
    rw [hstep]
    exact ih (handleWheel e p) hb.2.2 hb.1 hb.2.1

/-- C3: with the camera at a nonzero position, a wheel event with positive delta
sets the distance from the origin to min(100, 1.1·distance) — a strict 10%
multiplicative increase clamped at maxDistance = 100 — whenever the camera is at
or beyond minDistance = 0.1; and after any nonempty sequence of wheel events the
distance always lies within [0.1, 100]. -/
theorem C3_wheel_zoom_clamped (p : Vec3) (hp : vecNorm p ≠ 0) :
    (∀ dy : ℝ, 0 < dy → 0.1 ≤ vecNorm p →
        vecNorm (handleWheel dy p) = min 100 (vecNorm p * 1.1)) ∧
    (∀ evs : List ℝ, evs ≠ [] →
        0.1 ≤ vecNorm (applyWheel evs p) ∧ vecNorm (applyWheel evs p) ≤ 100) := by
  constructor
  · intro dy hdy hmin
    rw [norm_handleWheel dy p hp, if_pos hdy]
    rw [show (1:ℝ) + 0.1 = 1.1 by norm_num]
    apply max_eq_right
    apply le_min (by norm_num)
    nlinarith
  · intro evs hne
    match evs, hne with
    | e :: t, _ =>
      have hb := handleWheel_bounds e p hp
      have hstep : applyWheel (e :: t) p = applyWheel t (handleWheel e p) := rfl
      rw [hstep]
      exact applyWheel_bounds t (handleWheel e p) hb.2.2 hb.1 hb.2.1

/-- Witness for C3 at the initial camera position (0,0,5). -/
theorem C3_wheel_zoom_clamped_witness :
    vecNorm ⟨0, 0, 5⟩ ≠ 0 ∧
    ((∀ dy : ℝ, 0 < dy → 0.1 ≤ vecNorm ⟨0, 0, 5⟩ →
        vecNorm (handleWheel dy ⟨0, 0, 5⟩) = min 100 (vecNorm ⟨0, 0, 5⟩ * 1.1)) ∧
     (∀ evs : List ℝ, evs ≠ [] →
        0.1 ≤ vecNorm (applyWheel evs ⟨0, 0, 5⟩) ∧ vecNorm (applyWheel evs ⟨0, 0, 5⟩) ≤ 100)) := by
  have h5 : vecNorm (⟨0, 0, 5⟩ : Vec3) = 5 := by
    unfold vecNorm
    rw [show (0:ℝ) ^ 2 + 0 ^ 2 + 5 ^ 2 = 5 ^ 2 by norm_num,
        Real.sqrt_sq (by norm_num : (0:ℝ) ≤ 5)]
  exact ⟨by rw [h5]; norm_num, C3_wheel_zoom_clamped ⟨0, 0, 5⟩ (by rw [h5]; norm_num)⟩

/-- C4 (counterexample): a drag gesture starting at cursor (0,0), moving to
(100π/3, 0) and back to (0,0) — net cursor delta is zero, the gesture ends at its
start — does NOT restore the camera position (0,0,5). -/
theorem C4_zero_net_drag_counterexample :
    ([((100 : ℝ) * Real.pi / 3, (0 : ℝ)), ((0 : ℝ), (0 : ℝ))].getLast? = some ((0 : ℝ), (0 : ℝ))) ∧
    dragGesture ((0 : ℝ), (0 : ℝ)) [((100 : ℝ) * Real.pi / 3, (0 : ℝ)), ((0 : ℝ), (0 : ℝ))]
        ⟨0, 0, 5⟩ ≠ (⟨0, 0, 5⟩ : Vec3) := by
  refine ⟨rfl, ?_⟩
  have hval : dragGesture ((0 : ℝ), (0 : ℝ)) [((100 : ℝ) * Real.pi / 3, (0 : ℝ)), ((0 : ℝ), (0 : ℝ))]
      ⟨0, 0, 5⟩ = ⟨-(15 / 8 * Real.sqrt 3), 0, 35 / 16⟩ := by
    unfold dragGesture
    rw [List.foldl_cons, List.foldl_cons, List.foldl_nil]
    simp only [sub_zero, sub_self, zero_sub]
    rw [step1_eval, step2_eval]
  rw [hval]
  intro hEq
  have hx : -(15 / 8 * Real.sqrt 3) = 0 := congrArg Vec3.x hEq
  have h3 : (0:ℝ) < Real.sqrt 3 := Real.sqrt_pos.mpr (by norm_num)
  linarith

/-- C4 (amended): a drag gesture all of whose mouse-move events carry zero cursor
delta (every move is at the start coordinates) leaves the camera position
unchanged; zero NET delta with nonzero intermediate deltas need not. -/
theorem C4_zero_delta_drag_identity (start : ℝ × ℝ) (moves : List (ℝ × ℝ)) (p : Vec3)
    (h : ∀ m ∈ moves, m = start) : dragGesture start moves p = p := by
  induction moves generalizing p with
  | nil => rfl
  | cons m t ih =>
    have hm : m = start := h m (by simp)
    have ht : ∀ m' ∈ t, m' = start := fun m' hm' => h m' (by simp [hm'])
    have hstep : dragGesture start (m :: t) p
        = dragGesture m t (handleMouseMove (m.1 - start.1) (m.2 - start.2) p) := rfl
    rw [hstep, hm]
    simp only [sub_self]
    rw [handleMouseMove_zero]
    exact ih p ht

/-- Witness for the amended C4 at a concrete all-zero-delta gesture. -/
theorem C4_zero_delta_drag_identity_witness :
    (∀ m ∈ [((0:ℝ), (0:ℝ))], m = ((0:ℝ), (0:ℝ))) ∧
    dragGesture ((0:ℝ), (0:ℝ)) [((0:ℝ), (0:ℝ))] ⟨1, 2, 3⟩ = (⟨1, 2, 3⟩ : Vec3) :=
  ⟨by simp, C4_zero_delta_drag_identity ((0:ℝ), (0:ℝ)) [((0:ℝ), (0:ℝ))] ⟨1, 2, 3⟩ (by simp)⟩

/-- C5: the claim says every drag step is a rotation of the camera position and
so preserves the distance from the origin. The code contradicts it: because
`position.z` is computed from the already-updated `position.x` (lines 131-134),
the horizontal update is not a rotation. At camera (0,0,5), a single mouse-move
of horizontal delta 100π/3 px (angle π/3) changes the distance from 5 to
√(325)/4 ≈ 4.51. -/
theorem C5_horizontal_step_changes_distance :
    vecNorm (handleMouseMove (100 * Real.pi / 3) 0 ⟨0, 0, 5⟩) ≠ vecNorm ⟨0, 0, 5⟩ := by
  rw [step1_eval]
  unfold vecNorm
  have hs : Real.sqrt 3 * Real.sqrt 3 = 3 := Real.mul_self_sqrt (by norm_num)
  have hA : (-(5 / 2 * Real.sqrt 3)) ^ 2 + (0:ℝ) ^ 2 + (-(5 / 4)) ^ 2 = 325 / 16 := by
    linear_combination ((25 : ℝ) / 4) * hs
  have hB : (0:ℝ) ^ 2 + 0 ^ 2 + 5 ^ 2 = 25 := by norm_num
  rw [hA, hB]
  intro h
  have e1 : Real.sqrt (325 / 16) ^ 2 = 325 / 16 := Real.sq_sqrt (by norm_num)
  have e2 : Real.sqrt 25 ^ 2 = 25 := Real.sq_sqrt (by norm_num)
  rw [h, e2] at e1
  norm_num at e1

lemma jsMod_div_eq (x : ℚ) : jsMod x 360 / 360 = x / 360 - (truncQ (x / 360) : ℚ) := by
  unfold jsMod
  ring

lemma jsMod_div_bounds (x : ℚ) : -1 < jsMod x 360 / 360 ∧ jsMod x 360 / 360 < 1 := by
  rw [jsMod_div_eq]
  unfold truncQ
  split_ifs with h
  · push_cast
    have f1 := Int.floor_le (-(x / 360))
    have f2 := Int.lt_floor_add_one (-(x / 360))
    constructor <;> linarith
  · have f1 := Int.floor_le (x / 360)
    have f2 := Int.lt_floor_add_one (x / 360)
    constructor <;> linarith

lemma fract_jsMod (x : ℚ) : Int.fract (jsMod x 360 / 360) = Int.fract (x / 360) := by
  rw [jsMod_div_eq, Int.fract_sub_int]

lemma fract_jsMod_add (x c : ℚ) :
    Int.fract (jsMod x 360 / 360 + c) = Int.fract (x / 360 + c) := by
  rw [jsMod_div_eq,
      show x / 360 - (truncQ (x / 360) : ℚ) + c = (x / 360 + c) - (truncQ (x / 360) : ℚ) by ring,
      Int.fract_sub_int]

lemma fract_fract_add (x y : ℚ) : Int.fract (Int.fract x + y) = Int.fract (x + y) := by
  have h : Int.fract x = x - (⌊x⌋ : ℚ) := rfl
  rw [h, show x - (⌊x⌋ : ℚ) + y = x + y - (⌊x⌋ : ℚ) by ring, Int.fract_sub_int]

lemma hue2rgbShift_of_neg (t : ℚ) (h : t < 0) : hue2rgbShift t = t + 1 := by
  unfold hue2rgbShift
  simp only [if_pos h]
  rw [if_neg (by linarith : ¬(t + 1 > 1))]

lemma hue2rgbShift_of_mid (t : ℚ) (h0 : 0 ≤ t) (h1 : t ≤ 1) : hue2rgbShift t = t := by
  unfold hue2rgbShift
  simp only [if_neg (not_lt.mpr h0)]
  rw [if_neg (by linarith : ¬(t > 1))]

lemma hue2rgbShift_of_high (t : ℚ) (h : 1 < t) : hue2rgbShift t = t - 1 := by
  unfold hue2rgbShift
  simp only [if_neg (by linarith : ¬(t < 0))]
  rw [if_pos (by linarith : t > 1)]

/-- Over the argument range that `generateColor` can produce, the source's
shift-then-ramp agrees with the ramp on the fractional part. -/
lemma hue2rgb_eq_fpw (t : ℚ) (hm : -1 ≤ t) (hh : t < 4 / 3) :
    hue2rgb (8 / 25) (22 / 25) t = fpw (Int.fract t) := by
  rcases lt_or_le t 0 with hneg | hpos
  · have hfl : ⌊t⌋ = -1 := by
      rw [Int.floor_eq_iff]
      constructor <;> push_cast <;> linarith
    have hfr : Int.fract t = t + 1 := by
      rw [Int.fract, hfl]
      push_cast
      ring
    rw [hfr]
    unfold hue2rgb fpw
    rw [hue2rgbShift_of_neg t hneg]
  · rcases lt_or_le t 1 with hlt | hge
    · have hfr : Int.fract t = t := Int.fract_eq_self.mpr ⟨hpos, hlt⟩
      rw [hfr]
      unfold hue2rgb fpw
      rw [hue2rgbShift_of_mid t hpos (by linarith)]
    · rcases lt_or_eq_of_le hge with hgt | heq
      · have hfl : ⌊t⌋ = 1 := by
          rw [Int.floor_eq_iff]
          constructor <;> push_cast <;> linarith
        have hfr : Int.fract t = t - 1 := by
          rw [Int.fract, hfl]
          push_cast
          ring
        rw [hfr]
        unfold hue2rgb fpw
        rw [hue2rgbShift_of_high t hgt]
      · rw [← heq]
        unfold hue2rgb fpw
        rw [hue2rgbShift_of_mid 1 (by norm_num) (by norm_num)]
        norm_num [Int.fract_one]

lemma jsRound_close (a b : ℚ) (h : jsRound a = jsRound b) : a - b < 1 ∧ b - a < 1 := by
  unfold jsRound at h
  have ha1 := Int.floor_le (a + 1 / 2)
  have ha2 := Int.lt_floor_add_one (a + 1 / 2)
  have hb1 := Int.floor_le (b + 1 / 2)
  have hb2 := Int.lt_floor_add_one (b + 1 / 2)
  rw [h] at ha1 ha2
  constructor <;> linarith

lemma fract_add_delta (u : ℚ) (h0 : 0 ≤ u) (h1 : u < 1) :
    Int.fract (u + 11459 / 30000) =
      if u < 18541 / 30000 then u + 11459 / 30000 else u + 11459 / 30000 - 1 := by
  split_ifs with h
  · exact Int.fract_eq_self.mpr ⟨by linarith, by linarith⟩
  · push_neg at h
    have e1 : Int.fract (u + 11459 / 30000) = Int.fract (u + 11459 / 30000 - ((1 : ℤ) : ℚ)) :=
      (Int.fract_sub_int _ _).symm
    rw [e1, Int.fract_eq_self.mpr ⟨by push_cast; linarith, by push_cast; linarith⟩]
    push_cast
    ring

/-- Location of possible rounding collisions: if the ramp values at u and at
u + 137.508/360 (mod 1) are within 1/255 of each other, u lies in one of two
narrow windows around 2847/20000 and 12847/20000. -/
lemma collision_loc (u : ℚ) (h0 : 0 ≤ u) (h1 : u < 1)
    (hlo : -1 < 255 * fpw u - 255 * fpw (Int.fract (u + 11459 / 30000)))
    (hhi : 255 * fpw u - 255 * fpw (Int.fract (u + 11459 / 30000)) < 1) :
    (2847 / 20000 - 5 / 8568 < u ∧ u < 2847 / 20000 + 5 / 8568) ∨
    (12847 / 20000 - 5 / 8568 < u ∧ u < 12847 / 20000 + 5 / 8568) := by
  rw [fract_add_delta u h0 h1] at hlo hhi
  split_ifs at hlo hhi with hc
  · unfold fpw at hlo hhi
    split_ifs at hlo hhi <;> (left; constructor <;> linarith)
  · push_neg at hc
    unfold fpw at hlo hhi
    split_ifs at hlo hhi <;>
      first
        | (left; constructor <;> linarith)
        | (right; constructor <;> linarith)

/-- The two collision windows cannot contain both u and fract(u + 1/3): the
windows are 1/2 apart while the points are 1/3 apart. -/
lemma no_third_collision (u v : ℚ)
    (hu : (2847 / 20000 - 5 / 8568 < u ∧ u < 2847 / 20000 + 5 / 8568) ∨
          (12847 / 20000 - 5 / 8568 < u ∧ u < 12847 / 20000 + 5 / 8568))
    (hv : (2847 / 20000 - 5 / 8568 < v ∧ v < 2847 / 20000 + 5 / 8568) ∨
          (12847 / 20000 - 5 / 8568 < v ∧ v < 12847 / 20000 + 5 / 8568))
    (hrel : v = Int.fract (u + 1 / 3)) : False := by
  have h0 : (0 : ℚ) ≤ u + 1 / 3 := by rcases hu with ⟨h, _⟩ | ⟨h, _⟩ <;> linarith
  have h1 : u + 1 / 3 < 1 := by rcases hu with ⟨_, h⟩ | ⟨_, h⟩ <;> linarith
  rw [Int.fract_eq_self.mpr ⟨h0, h1⟩] at hrel
  rcases hu with ⟨ha, hb⟩ | ⟨ha, hb⟩ <;> rcases hv with ⟨hc, hd⟩ | ⟨hc, hd⟩ <;> linarith

lemma generateColor_eq (x : ℚ) :
    generateColor x =
      (jsRound (hue2rgb (8 / 25) (22 / 25) (jsMod (x * 137.508) 360 / 360 + 1 / 3) * 255),
       jsRound (hue2rgb (8 / 25) (22 / 25) (jsMod (x * 137.508) 360 / 360) * 255),
       jsRound (hue2rgb (8 / 25) (22 / 25) (jsMod (x * 137.508) 360 / 360 - 1 / 3) * 255)) := by
  unfold generateColor
  norm_num

/-- C8: the color generator is a function of the index alone (deterministic), and
for every integer index i the rounded RGB triple at i differs from the triple at
i + 1: the golden-angle hue step never maps two consecutive indices to the same
rounded color. -/
theorem C8_generateColor_consecutive_distinct (i : ℤ) :
    generateColor (i : ℚ) = generateColor (i : ℚ) ∧
    generateColor (i : ℚ) ≠ generateColor ((i : ℚ) + 1) := by
  refine ⟨rfl, ?_⟩
  intro hEq
  rw [generateColor_eq, generateColor_eq] at hEq
  simp only [Prod.mk.injEq] at hEq
  obtain ⟨hr, hg, -⟩ := hEq
  have h137 : (137.508 : ℚ) = 34377 / 250 := by norm_num
  have hy : ((i : ℚ) + 1) * 137.508 / 360 = (i : ℚ) * 137.508 / 360 + 11459 / 30000 := by
    rw [h137]
    ring
  obtain ⟨b1l, b1h⟩ := jsMod_div_bounds ((i : ℚ) * 137.508)
  obtain ⟨b2l, b2h⟩ := jsMod_div_bounds (((i : ℚ) + 1) * 137.508)
  -- rewrite the green channel into ramp form
  rw [hue2rgb_eq_fpw (jsMod ((i : ℚ) * 137.508) 360 / 360) (by linarith) (by linarith),
      hue2rgb_eq_fpw (jsMod (((i : ℚ) + 1) * 137.508) 360 / 360) (by linarith) (by linarith),
      fract_jsMod ((i : ℚ) * 137.508), fract_jsMod (((i : ℚ) + 1) * 137.508), hy,
      ← fract_fract_add ((i : ℚ) * 137.508 / 360) (11459 / 30000)] at hg
  -- rewrite the red channel into ramp form
  rw [hue2rgb_eq_fpw (jsMod ((i : ℚ) * 137.508) 360 / 360 + 1 / 3) (by linarith) (by linarith),
      hue2rgb_eq_fpw (jsMod (((i : ℚ) + 1) * 137.508) 360 / 360 + 1 / 3) (by linarith) (by linarith),
      fract_jsMod_add ((i : ℚ) * 137.508) (1 / 3),
      fract_jsMod_add (((i : ℚ) + 1) * 137.508) (1 / 3), hy,
      show (i : ℚ) * 137.508 / 360 + 11459 / 30000 + 1 / 3
         = ((i : ℚ) * 137.508 / 360 + 1 / 3) + 11459 / 30000 by ring,
      ← fract_fract_add ((i : ℚ) * 137.508 / 360 + 1 / 3) (11459 / 30000),
      ← fract_fract_add ((i : ℚ) * 137.508 / 360) (1 / 3)] at hr
  obtain ⟨g1, g2⟩ := jsRound_close _ _ hg
  obtain ⟨r1, r2⟩ := jsRound_close _ _ hr
  have SU := collision_loc (Int.fract ((i : ℚ) * 137.508 / 360))
    (Int.fract_nonneg _) (Int.fract_lt_one _) (by linarith) (by linarith)
  have SX := collision_loc (Int.fract (Int.fract ((i : ℚ) * 137.508 / 360) + 1 / 3))
    (Int.fract_nonneg _) (Int.fract_lt_one _) (by linarith) (by linarith)
  exact no_third_collision _ _ SU SX rfl

/-- C1 (code bug evaluation): submitting the two-character text consisting only
of braces — valid JSON with no `objects` member — makes the try block throw at
`data.objects.forEach`, but only AFTER the scene was cleared and lights/grid
re-added: the submission fails (error slot set to the static message) yet the
prior scene, which held a renderable group, has been replaced by just
lights + grid. This refutes the claim that every failing submission leaves the
scene exactly as it was. -/
theorem C1_shape_mismatch_mutates_scene :
    handleJsonSubmit "\x7b\x7d" priorScene = (baseScene, errMsg) ∧
    priorScene ≠ baseScene ∧ errMsg ≠ "" := by
  refine ⟨rfl, ?_, by decide⟩
  intro h
  have hlen := congrArg List.length h
  simp [priorScene, baseScene] at hlen

/-- C7: submitting the literal text with an empty `objects` array succeeds from
any prior scene: all prior children are removed and the scene ends with exactly
the ambient light, the directional light and the grid (zero renderable groups),
with the error slot reset to empty. -/
theorem C7_empty_objects_load (prior : List SceneNode) :
    handleJsonSubmit emptyObjectsInput prior = (baseScene, "") := rfl

/-- C9: after every submission the error slot holds either the empty string or
the static message; the static message is non-empty; and the slot is non-empty
exactly when the submission failed (threw inside the try block). -/
theorem C9_error_iff_failure (input : String) (scene : List SceneNode) :
    ((handleJsonSubmit input scene).2 = "" ∨ (handleJsonSubmit input scene).2 = errMsg) ∧
    errMsg ≠ "" ∧
    ((handleJsonSubmit input scene).2 ≠ "" ↔ submitFails input = true) := by
  have hne : errMsg ≠ "" := by decide
  have key : (handleJsonSubmit input scene).2 = (if submitFails input then errMsg else "") := by
    unfold handleJsonSubmit submitFails
    cases hp : jsonParse input with
    | none => simp
    | some data =>
      cases ho : getObjectsArr data with
      | none => simp [ho]
      | some objs => simp [ho]
  rw [key]
  by_cases hf : submitFails input = true
  · rw [if_pos hf]
    exact ⟨Or.inr rfl, hne, by simp [hf, hne]⟩
  · rw [if_neg hf]
    exact ⟨Or.inl rfl, hne, by simp [hf]⟩

end MV
